import Mathlib

/-
Verification of the POCO logging core (Poco::Logger) and the
DirectoryIterator end-iterator behaviour, as a shallow embedding.

The per-logger dispatch functions (`Logger::log`, `Logger::is` and the
eight severity probes) are translated from the inline definitions in
src/Foundation/include/Poco/Logger.h.  The registry operations
(`get`, `create`, `has`, `destroy`, `shutdown`, the static bulk
`setLevel`/`setChannel`, `parseLevel`, `format`, `formatDump`) are only
declared in that header; their bodies live in Logger.cpp, which is not
part of the shown sources, so they are modelled from the specification.
DirectoryIterator's increment operators are translated from
src/Foundation/src/DirectoryIterator.cpp.
-/

set_option autoImplicit false

namespace PocoSpec

/-- Modelled from the spec: the numeric priorities of Poco::Message
(`Message::Priority`), which Message.h is missing from the shown sources.
The spec fixes none = 0 ascending through trace = 8, and the Logger.h
doc comment pins PRIO_ERROR = 3 with smaller numbers more severe. -/
def PRIO_FATAL : Int := 1

/-- Modelled from the spec: PRIO_CRITICAL = 2. -/
def PRIO_CRITICAL : Int := 2

/-- Modelled from the spec: PRIO_ERROR = 3. -/
def PRIO_ERROR : Int := 3

/-- Modelled from the spec: PRIO_WARNING = 4. -/
def PRIO_WARNING : Int := 4

/-- Modelled from the spec: PRIO_NOTICE = 5. -/
def PRIO_NOTICE : Int := 5

/-- Modelled from the spec: PRIO_INFORMATION = 6, the default level used
by `Logger::create` (Logger.h line 587). -/
def PRIO_INFORMATION : Int := 6

/-- Modelled from the spec: PRIO_DEBUG = 7. -/
def PRIO_DEBUG : Int := 7

/-- Modelled from the spec: PRIO_TRACE = 8. -/
def PRIO_TRACE : Int := 8

/-- A sink (Poco::Channel) is external to the core: the core only needs an
abstract handle identifying which sink a message is delivered to. -/
structure Channel where
  id : Nat
deriving DecidableEq

/-- The immutable log record (Poco::Message): source logger name, text and
numeric priority.  The optional source location is dropped: no claim
mentions it. -/
structure Message where
  source : String
  text : String
  priority : Int
deriving DecidableEq

/-- A logger, from Logger.h lines 653-655: name, attached channel pointer
(`Channel* _pChannel`, null modelled as `none`), and integer level. -/
structure Logger where
  _name : String
  _pChannel : Option Channel
  _level : Int
deriving DecidableEq

/-- `Logger::name()` (Logger.h line 802). -/
def Logger.name (lg : Logger) : String :=
  lg._name

/-- `Logger::getLevel()` (Logger.h line 808). -/
def Logger.getLevel (lg : Logger) : Int :=
  lg._level

/-- Member `Logger::setLevel(int)` (declared Logger.h line 94): replaces
the level field. -/
def Logger.setLevel (lg : Logger) (level : Int) : Logger :=
  { lg with _level := level }

/-- Member `Logger::setChannel(Channel*)` (declared Logger.h line 88):
replaces the attached channel; `none` detaches. -/
def Logger.setChannel (lg : Logger) (ch : Option Channel) : Logger :=
  { lg with _pChannel := ch }

/-- `Logger::log(text, prio)` (Logger.h lines 814-820):
`if (_level >= prio && _pChannel) _pChannel->log(Message(_name, text, prio))`.
The embedding returns the delivered (channel, message) pair, or `none`
for the silent no-op; the logger itself is not modified and no error is
possible. -/
def Logger.log (lg : Logger) (text : String) (prio : Int) : Option (Channel × Message) :=
  if lg._level ≥ prio then
    match lg._pChannel with
    | some ch => some (ch, { source := lg._name, text := text, priority := prio })
    | none => none
  else
    none

/-- `Logger::is(level)` (Logger.h lines 1528-1531): `_level >= level`. -/
def Logger.is (lg : Logger) (level : Int) : Bool :=
  decide (lg._level ≥ level)

/-- Probe `Logger::fatal()` (Logger.h line 1534). -/
def Logger.fatal (lg : Logger) : Bool :=
  decide (lg._level ≥ PRIO_FATAL)

/-- Probe `Logger::critical()` (Logger.h line 1540). -/
def Logger.critical (lg : Logger) : Bool :=
  decide (lg._level ≥ PRIO_CRITICAL)

/-- Probe `Logger::error()` (Logger.h line 1546). -/
def Logger.error (lg : Logger) : Bool :=
  decide (lg._level ≥ PRIO_ERROR)

/-- Probe `Logger::warning()` (Logger.h line 1552). -/
def Logger.warning (lg : Logger) : Bool :=
  decide (lg._level ≥ PRIO_WARNING)

/-- Probe `Logger::notice()` (Logger.h line 1558). -/
def Logger.notice (lg : Logger) : Bool :=
  decide (lg._level ≥ PRIO_NOTICE)

/-- Probe `Logger::information()` (Logger.h line 1564). -/
def Logger.information (lg : Logger) : Bool :=
  decide (lg._level ≥ PRIO_INFORMATION)

/-- Probe `Logger::debug()` (Logger.h line 1570). -/
def Logger.debug (lg : Logger) : Bool :=
  decide (lg._level ≥ PRIO_DEBUG)

/-- Probe `Logger::trace()` (Logger.h line 1576). -/
def Logger.trace (lg : Logger) : Bool :=
  decide (lg._level ≥ PRIO_TRACE)

/-- Helper: split a character list at every dot, keeping empty components,
mirroring the dotted-name convention of the registry.  (Own structural
definition so that concrete witnesses evaluate in the kernel.) -/
def splitComponents : List Char → List (List Char)
  | [] => [[]]
  | c :: rest =>
    let r := splitComponents rest
    if c = '.' then
      [] :: r
    else
      match r with
      | [] => [[c]]
      | g :: gs => (c :: g) :: gs

/-- Helper: join a list of strings with the given separator between
consecutive elements. -/
def joinSep (sep : String) : List String → String
  | [] => ""
  | [s] => s
  | s :: rest => s ++ sep ++ joinSep sep rest

/-- Modelled from the spec: the proper dotted ancestors of a logger name,
obtained by repeatedly stripping the last dot-delimited component,
longest (nearest) first.  This is the probe order of `Logger::parent`,
whose body (Logger.cpp) is missing from the shown sources. -/
def ancestors (name : String) : List String :=
  let comps := (splitComponents name.data).map (fun g => String.mk g)
  ((List.range (comps.length - 1)).reverse).map (fun i => joinSep "." (comps.take (i + 1)))

/-- Helper: does `s` start with the string `p`, on the underlying
character lists (own structural definition). -/
def leadsWith : List Char → List Char → Bool
  | [], _ => true
  | _ :: _, [] => false
  | p :: ps, c :: cs => p == c && leadsWith ps cs

/-- Modelled from the spec: the static bulk operations apply to every
registered logger whose name equals `name` or starts with `name ++ "."`. -/
def matchesSubtree (name lgName : String) : Bool :=
  lgName == name || leadsWith (name ++ ".").data lgName.data

/-- The registry (Logger.h line 657, `static LoggerMap* _pLoggerMap`):
the process-wide ownership list of loggers, keyed by `_name`,
with at most one logger per name in every state the code produces. -/
structure Registry where
  loggers : List Logger
deriving DecidableEq

/-- The fresh (never touched) registry: the null `_pLoggerMap`. -/
def Registry.empty : Registry :=
  ⟨[]⟩

/-- Modelled from the spec: `Logger::find(name)`, the non-creating map
lookup used by `has`/`get` (body in the missing Logger.cpp). -/
def Registry.find (r : Registry) (name : String) : Option Logger :=
  r.loggers.find? (fun lg => lg._name == name)

/-- Modelled from the spec: the root logger created on demand has the
default configuration -- no channel attached and level
PRIO_INFORMATION (the default of `Logger::create`, Logger.h line 587). -/
def defaultRootLogger : Logger :=
  { _name := "", _pChannel := none, _level := PRIO_INFORMATION }

/-- Modelled from the spec: `Logger::root()` / the root fallback of
ancestor resolution: return the registered root, creating it with the
default configuration if absent. -/
def Registry.getRoot (r : Registry) : Registry × Logger :=
  match r.find "" with
  | some lg => (r, lg)
  | none => (⟨defaultRootLogger :: r.loggers⟩, defaultRootLogger)

/-- Modelled from the spec: probe the registry for each candidate name in
order and return the first hit. -/
def Registry.findFirst (r : Registry) : List String → Option Logger
  | [] => none
  | n :: rest =>
    match r.find n with
    | some lg => some lg
    | none => r.findFirst rest

/-- Modelled from the spec: `Logger::parent(name)` -- the nearest existing
ancestor, found by trimming trailing dot-components until a registered
name is hit; if no component matches, the root logger (created on
demand) supplies the configuration. -/
def Registry.resolveAncestor (r : Registry) (name : String) : Registry × Logger :=
  match r.findFirst (ancestors name) with
  | some lg => (r, lg)
  | none => r.getRoot

/-- Modelled from the spec: static `Logger::get(name)` (declared Logger.h
lines 572-575) -- return the registered logger, or create one whose
level and channel are a one-time snapshot of the resolved ancestor's. -/
def Registry.get (r : Registry) (name : String) : Registry × Logger :=
  match r.find name with
  | some lg => (r, lg)
  | none =>
    if name = "" then
      (⟨defaultRootLogger :: r.loggers⟩, defaultRootLogger)
    else
      match r.resolveAncestor name with
      | (r1, anc) =>
        let lg : Logger := { _name := name, _pChannel := anc._pChannel, _level := anc._level }
        (⟨lg :: r1.loggers⟩, lg)

/-- Modelled from the spec: static `Logger::create(name, channel, level)`
(declared Logger.h line 587) -- explicit construction ignoring
inheritance, replacing any prior entry of that name. -/
def Registry.create (r : Registry) (name : String) (ch : Option Channel) (level : Int) : Registry × Logger :=
  let lg : Logger := { _name := name, _pChannel := ch, _level := level }
  (⟨lg :: r.loggers.filter (fun l => l._name != name)⟩, lg)

/-- Modelled from the spec: static `Logger::has(name)` (declared Logger.h
lines 596-598) -- non-creating lookup returning an explicit absence
value (`none` models the null pointer); it never fails. -/
def Registry.has (r : Registry) (name : String) : Option Logger :=
  r.find name

/-- Modelled from the spec: static `Logger::destroy(name)` (declared
Logger.h lines 600-605) -- removes the entry with that name (there is at
most one); a silent no-op if the name is not registered. -/
def Registry.destroy (r : Registry) (name : String) : Registry :=
  ⟨r.loggers.filter (fun lg => lg._name != name)⟩

/-- Modelled from the spec: static `Logger::shutdown()` (declared Logger.h
lines 607-609) -- destroys all entries; the registry is empty afterward. -/
def Registry.shutdown (_r : Registry) : Registry :=
  ⟨[]⟩

/-- Modelled from the spec: static `Logger::names(...)` -- the names of all
currently registered loggers. -/
def Registry.names (r : Registry) : List String :=
  r.loggers.map (fun lg => lg._name)

/-- Modelled from the spec: applying a member mutation to the single
registered logger with the given name (the registry owns the loggers, so
an in-place member call is a keyed update of the owning map). -/
def Registry.modifyLogger (r : Registry) (name : String) (f : Logger → Logger) : Registry :=
  ⟨r.loggers.map (fun lg => if lg._name == name then f lg else lg)⟩

/-- Modelled from the spec: static `Logger::setLevel(name, level)`
(declared Logger.h lines 560-562) -- set the level on every currently
registered logger whose name equals `name` or starts with `name ++ "."`. -/
def Registry.setLevelBulk (r : Registry) (name : String) (level : Int) : Registry :=
  ⟨r.loggers.map (fun lg => if matchesSubtree name lg._name then lg.setLevel level else lg)⟩

/-- Modelled from the spec: static `Logger::setChannel(name, channel)`
(declared Logger.h lines 564-566) -- attach the channel on every
currently registered logger in the `name` subtree. -/
def Registry.setChannelBulk (r : Registry) (name : String) (ch : Option Channel) : Registry :=
  ⟨r.loggers.map (fun lg => if matchesSubtree name lg._name then lg.setChannel ch else lg)⟩

/-- The mutating registry operations, used to talk about reachable
registry states. -/
inductive Op where
  | get (name : String)
  | create (name : String) (ch : Option Channel) (level : Int)
  | destroy (name : String)
  | setLevelBulk (name : String) (level : Int)
  | setChannelBulk (name : String) (ch : Option Channel)
  | shutdown
deriving DecidableEq

/-- One step of the registry state machine. -/
def Registry.applyOp (r : Registry) : Op → Registry
  | .get n => (r.get n).1
  | .create n ch lvl => (r.create n ch lvl).1
  | .destroy n => r.destroy n
  | .setLevelBulk n lvl => r.setLevelBulk n lvl
  | .setChannelBulk n ch => r.setChannelBulk n ch
  | .shutdown => r.shutdown

/-- Run a sequence of registry operations from a starting state. -/
def Registry.applyAll (r : Registry) (ops : List Op) : Registry :=
  ops.foldl Registry.applyOp r

/-- The error kinds of the core that the claims mention. -/
inductive PocoError where
  | invalidArgument (message : String)
deriving DecidableEq

/-- Helper: ASCII lowercasing of a string (own definition over the
character list, mirroring the case-insensitive `icompare`). -/
def lowercase (s : String) : String :=
  String.mk (s.data.map Char.toLower)

/-- The nine symbolic level names accepted by `parseLevel`. -/
def levelNames : List String :=
  ["none", "fatal", "critical", "error", "warning", "notice", "information", "debug", "trace"]

/-- Modelled from the spec: static `Logger::parseLevel(level)` (declared
Logger.h lines 615-630) -- case-insensitive parse of the nine symbolic
names to 0..8, failing with an InvalidArgument error otherwise. -/
def parseLevel (s : String) : Except PocoError Int :=
  let l := lowercase s
  if l = "none" then .ok 0
  else if l = "fatal" then .ok PRIO_FATAL
  else if l = "critical" then .ok PRIO_CRITICAL
  else if l = "error" then .ok PRIO_ERROR
  else if l = "warning" then .ok PRIO_WARNING
  else if l = "notice" then .ok PRIO_NOTICE
  else if l = "information" then .ok PRIO_INFORMATION
  else if l = "debug" then .ok PRIO_DEBUG
  else if l = "trace" then .ok PRIO_TRACE
  else .error (.invalidArgument s)

/-- Helper: the string form of the positional argument selected by a digit
character; out-of-range references produce nothing. -/
def argString (args : List String) (c : Char) : String :=
  args.getD (c.toNat - 48) ""

/-- Modelled from the spec: the left-to-right scan of static
`Logger::format` (declared Logger.h lines 536-554): a double dollar
emits one literal dollar; a dollar followed by a digit is replaced by
the 0-indexed positional argument; a dollar followed by anything else
is passed through unchanged (an open policy point of the spec). -/
def formatScan : List Char → List String → List Char
  | [], _ => []
  | c :: rest, args =>
    if c = '$' then
      match rest with
      | [] => ['$']
      | d :: rest2 =>
        if d = '$' then
          '$' :: formatScan rest2 args
        else if d.isDigit then
          (argString args d).data ++ formatScan rest2 args
        else
          '$' :: d :: formatScan rest2 args
    else
      c :: formatScan rest args

/-- Modelled from the spec: static `Logger::format(fmt, args...)` with the
positional arguments collapsed to one list. -/
def format (fmt : String) (args : List String) : String :=
  String.mk (formatScan fmt.data args)

/-- Helper: one lowercase hexadecimal digit. -/
def hexDigitChar (n : Nat) : Char :=
  if n < 10 then Char.ofNat (48 + n) else Char.ofNat (87 + n)

/-- Helper: a byte as two lowercase hexadecimal digits. -/
def hexByte (b : Nat) : String :=
  String.mk [hexDigitChar ((b / 16) % 16), hexDigitChar (b % 16)]

/-- Helper: an offset as four big-endian hexadecimal digits. -/
def hexOffset4 (n : Nat) : String :=
  String.mk [hexDigitChar ((n / 4096) % 16), hexDigitChar ((n / 256) % 16),
    hexDigitChar ((n / 16) % 16), hexDigitChar (n % 16)]

/-- Modelled from the spec: the ASCII column of the hex dump renders a
byte literally when its value lies in [32, 127) and as a dot otherwise. -/
def asciiChar (b : Nat) : Char :=
  if 32 ≤ b ∧ b < 127 then Char.ofNat b else '.'

/-- Modelled from the spec: one dump row -- 4-hex-digit big-endian offset,
a space, the space-separated two-digit hex bytes of the row (a short
final row simply has fewer fields), two spaces, then the ASCII column. -/
def dumpRow (offset : Nat) (bytes : List Nat) : String :=
  hexOffset4 offset ++ " " ++ joinSep " " (bytes.map hexByte) ++ "  " ++
    String.mk (bytes.map asciiChar)

/-- Helper for `dumpRows`: structural recursion on a fuel counter (always
called with fuel at least the list length, and each step consumes at
least one byte, so the fuel branch is never hit from `dumpRows`). -/
def dumpRowsFuel : Nat → Nat → List Nat → List String
  | _, _, [] => []
  | 0, _, _ :: _ => []
  | fuel + 1, offset, b :: rest =>
    dumpRow offset (b :: rest.take 15) :: dumpRowsFuel fuel (offset + 16) (rest.drop 15)

/-- Modelled from the spec: the buffer processed in rows of 16 bytes, with
offsets advancing by 16 per row. -/
def dumpRows (offset : Nat) (bytes : List Nat) : List String :=
  dumpRowsFuel bytes.length offset bytes

/-- Modelled from the spec: static `Logger::formatDump(message, buffer,
length)` (declared Logger.h lines 556-558) -- the newline-joined rows are
appended to, never replacing, the caller-supplied message. -/
def formatDump (message : String) (buffer : List Nat) : String :=
  message ++ joinSep "\n" (dumpRows 0 buffer)

/-- Modelled from the spec: the platform directory-enumeration handle
(`DirectoryIteratorImpl`, an external thin OS wrapper) is a stream of
entry names; `next()` yields the next name, or the empty string when the
stream is exhausted. -/
structure DirectoryIteratorImpl where
  entries : List String
deriving DecidableEq

/-- Modelled from the spec: advance the directory handle. -/
def DirectoryIteratorImpl.next (impl : DirectoryIteratorImpl) : String × DirectoryIteratorImpl :=
  match impl.entries with
  | [] => ("", ⟨[]⟩)
  | e :: rest => (e, ⟨rest⟩)

/-- Modelled from the spec: the slice of Poco::Path that
DirectoryIterator uses -- a directory part and a file-name part, with
`setFileName` replacing only the latter. -/
structure Path where
  directory : String
  fileName : String
deriving DecidableEq

/-- Modelled from the spec: `Path::setFileName`. -/
def Path.setFileName (p : Path) (n : String) : Path :=
  { p with fileName := n }

/-- DirectoryIterator state (DirectoryIterator.cpp): current path, current
file and the optional implementation handle (`_pImpl`, null modelled as
`none`). -/
structure DirectoryIterator where
  _path : Path
  _file : Path
  _pImpl : Option DirectoryIteratorImpl
deriving DecidableEq

/-- The default constructor `DirectoryIterator()` (DirectoryIterator.cpp
lines 54-56): only `_pImpl(0)`; path and file are default-constructed. -/
def DirectoryIterator.mkDefault : DirectoryIterator :=
  { _path := { directory := "", fileName := "" },
    _file := { directory := "", fileName := "" },
    _pImpl := none }

/-- The pre-increment `operator++` (DirectoryIterator.cpp lines 147-155):
guarded on `_pImpl`; when present, sets the path's file name to the next
entry and refreshes `_file`. -/
def DirectoryIterator.incrPre (it : DirectoryIterator) : DirectoryIterator :=
  match it._pImpl with
  | none => it
  | some impl =>
    match impl.next with
    | (n, impl2) =>
      let p := it._path.setFileName n
      { _path := p, _file := p, _pImpl := some impl2 }

/-- The post-increment `operator++(int)` (DirectoryIterator.cpp lines
158-166): same guarded body, returning `*this` by value after the
update, so the returned copy equals the new state. -/
def DirectoryIterator.incrPost (it : DirectoryIterator) : DirectoryIterator × DirectoryIterator :=
  match it._pImpl with
  | none => (it, it)
  | some impl =>
    match impl.next with
    | (n, impl2) =>
      let p := it._path.setFileName n
      ({ _path := p, _file := p, _pImpl := some impl2 },
       { _path := p, _file := p, _pImpl := some impl2 })

/-- Helper: `find?` by name commutes with mapping a name-preserving
function over the registry list. -/
theorem find?_map_keyName (l : List Logger) (f : Logger → Logger)
    (hf : ∀ lg, (f lg)._name = lg._name) (m : String) :
    (l.map f).find? (fun lg => lg._name == m)
      = (l.find? (fun lg => lg._name == m)).map f := by
  rw [List.find?_map]
  have hp : ((fun lg => lg._name == m) ∘ f) = (fun lg => lg._name == m) := by
    funext lg
    simp [hf]
  rw [hp]

/-- Helper: filtering away the entries named `name` absorbs a prior keyed
update of exactly those entries. -/
theorem filter_absorbs_keyed_update (l : List Logger) (name : String) (F : Logger → Logger)
    (hF : ∀ lg, (F lg)._name = lg._name) :
    (l.map (fun lg => if lg._name == name then F lg else lg)).filter
        (fun lg => lg._name != name)
      = l.filter (fun lg => lg._name != name) := by
  induction l with
  | nil => rfl
  | cons a l ih =>
    by_cases h : (a._name == name) = true
    · simp only [List.map_cons, if_pos h, List.filter_cons]
      have h1 : ((F a)._name != name) = false := by simp [bne, hF, h]
      have h2 : (a._name != name) = false := by simp [bne, h]
      rw [h1, h2]
      simpa using ih
    · simp only [List.map_cons, if_neg h, List.filter_cons]
      have h2 : (a._name != name) = true := by simp [bne, h]
      rw [h2]
      simpa using ih

/-- C1: level-filtered dispatch.  `is(level)` returns true iff the
logger's current level is at least `level`; `log(text, priority)`
delivers a Message carrying the logger's name, the text and the
priority to the attached channel iff the level passes and a channel is
attached, and in every other case it is a silent no-op (`none`): the
embedding is a total function returning only the optional emission, so
no error is raised and no state is changed. -/
theorem C1_level_filtered_dispatch (lg : Logger) (level : Int) (text : String) (prio : Int) :
    (lg.is level = true ↔ lg.getLevel ≥ level)
    ∧ ((lg.log text prio).isSome = true ↔ (lg.getLevel ≥ prio ∧ lg._pChannel ≠ none))
    ∧ (∀ ch m, lg.log text prio = some (ch, m) →
        lg._pChannel = some ch ∧ m.source = lg.name ∧ m.text = text ∧ m.priority = prio)
    ∧ (¬ lg.getLevel ≥ prio ∨ lg._pChannel = none → lg.log text prio = none) := by
  refine ⟨by simp [Logger.is, Logger.getLevel], ?_, ?_, ?_⟩
  · unfold Logger.log Logger.getLevel
    rcases hch : lg._pChannel with _ | ch <;> by_cases hl : lg._level ≥ prio <;> simp [hch, hl]
  · intro ch m hlog
    unfold Logger.log at hlog
    rcases hch : lg._pChannel with _ | ch0 <;> rw [hch] at hlog <;>
      by_cases hl : lg._level ≥ prio <;> simp [hl] at hlog
    obtain ⟨h1, h2⟩ := hlog
    subst h1
    simp [← h2, Logger.name]
  · intro h
    unfold Logger.log Logger.getLevel at *
    rcases h with h | h
    · simp [h]
    · rcases hl : decide (lg._level ≥ prio) <;> simp_all

/-- C1 witness: a logger at level 8 with an attached channel is a silent
no-op at priority 9 (the probe fails). -/
theorem C1_witness :
    Logger.log { _name := "src", _pChannel := some ⟨7⟩, _level := 8 } "t" 9 = none :=
  (C1_level_filtered_dispatch { _name := "src", _pChannel := some ⟨7⟩, _level := 8 } 1 "t" 9).2.2.2
    (Or.inl (by decide))

/-- C9: probe monotonicity.  If `is(l2)` holds and `l1 ≤ l2` then
`is(l1)` holds; consequently each severity-named probe implies every
probe of a more severe (numerically smaller) priority. -/
theorem C9_probe_monotonicity (lg : Logger) (l1 l2 : Int) (h12 : l1 ≤ l2)
    (h2 : lg.is l2 = true) :
    lg.is l1 = true
    ∧ (lg.trace = true → lg.debug = true)
    ∧ (lg.debug = true → lg.information = true)
    ∧ (lg.information = true → lg.notice = true)
    ∧ (lg.notice = true → lg.warning = true)
    ∧ (lg.warning = true → lg.error = true)
    ∧ (lg.error = true → lg.critical = true)
    ∧ (lg.critical = true → lg.fatal = true) := by
  simp only [Logger.is, Logger.trace, Logger.debug, Logger.information, Logger.notice,
    Logger.warning, Logger.error, Logger.critical, Logger.fatal, PRIO_TRACE, PRIO_DEBUG,
    PRIO_INFORMATION, PRIO_NOTICE, PRIO_WARNING, PRIO_ERROR, PRIO_CRITICAL, PRIO_FATAL,
    decide_eq_true_eq] at *
  omega

/-- C9 witness: at level 8, `is 5` holds, hence `is 3` holds. -/
theorem C9_witness :
    ({ _name := "", _pChannel := none, _level := 8 } : Logger).is 3 = true :=
  (C9_probe_monotonicity { _name := "", _pChannel := none, _level := 8 } 3 5 (by decide)
    (by decide)).1

/-- C10: incrementing a DirectoryIterator that has no implementation
handle -- as produced by the default constructor -- is a total no-op for
both the pre- and the post-increment operator: the path and file (the
whole state) are unchanged, and no failure is possible (both operators
are total functions guarded on the handle). -/
theorem C10_end_iterator_increment_noop (it : DirectoryIterator) (h : it._pImpl = none) :
    it.incrPre = it ∧ it.incrPost = (it, it)
    ∧ DirectoryIterator.mkDefault._pImpl = none := by
  refine ⟨?_, ?_, rfl⟩ <;> simp [DirectoryIterator.incrPre, DirectoryIterator.incrPost, h]

/-- C10 witness: the default-constructed iterator is unchanged by both
increment operators. -/
theorem C10_witness :
    DirectoryIterator.mkDefault.incrPre = DirectoryIterator.mkDefault
    ∧ DirectoryIterator.mkDefault.incrPost
        = (DirectoryIterator.mkDefault, DirectoryIterator.mkDefault)
    ∧ DirectoryIterator.mkDefault._pImpl = none :=
  C10_end_iterator_increment_noop DirectoryIterator.mkDefault rfl

/-- C2: snapshot inheritance.  When `get(name)` creates a logger that
does not yet exist (and is not the root), its level and channel are
copied from the resolved nearest existing ancestor (root fallback
included) at creation time, and the created entry is registered under
`name`; afterwards there is no live link: mutating the level or the
channel of any other logger -- in particular the ancestor -- leaves the
created logger's registered entry unchanged. -/
theorem C2_snapshot_inheritance (r : Registry) (name other : String) (lvl : Int)
    (ch : Option Channel) (habs : r.find name = none) (hne : name ≠ "")
    (hother : other ≠ name) :
    ((r.get name).2._level = (r.resolveAncestor name).2._level)
    ∧ ((r.get name).2._pChannel = (r.resolveAncestor name).2._pChannel)
    ∧ ((r.get name).2._name = name)
    ∧ ((r.get name).1.find name = some (r.get name).2)
    ∧ (((r.get name).1.modifyLogger other (fun lg => lg.setLevel lvl)).find name
        = some (r.get name).2)
    ∧ (((r.get name).1.modifyLogger other (fun lg => lg.setChannel ch)).find name
        = some (r.get name).2) := by
  rcases hra : r.resolveAncestor name with ⟨r1, anc⟩
  have hg : r.get name
      = (⟨{ _name := name, _pChannel := anc._pChannel, _level := anc._level } :: r1.loggers⟩,
         { _name := name, _pChannel := anc._pChannel, _level := anc._level }) := by
    unfold Registry.get
    rw [habs, if_neg hne, hra]
  have hcond : ¬ (name = other) := fun hEq => hother hEq.symm
  rw [hg]
  refine ⟨rfl, rfl, rfl, ?_, ?_, ?_⟩
  · simp [Registry.find, List.find?_cons]
  · simp [Registry.modifyLogger, Registry.find, List.find?_cons, hcond]
  · simp [Registry.modifyLogger, Registry.find, List.find?_cons, hcond]

/-- C2 witness: creating "a.b" in the empty registry registers it, and it
stays registered (unchanged) under mutations of the root. -/
theorem C2_witness :
    ((Registry.empty.get "a.b").1.find "a.b") = some (Registry.empty.get "a.b").2 :=
  (C2_snapshot_inheritance Registry.empty "a.b" "" 3 (some ⟨1⟩) rfl (by decide)
    (by decide)).2.2.2.1

/-- C3: bulk reconfiguration scope and frame.  After the static
`setLevel(name, level)`: the set of registered names is exactly
preserved (no missing descendant is created, nothing is destroyed);
every logger registered at call time whose name equals `name` or starts
with `name ++ "."` has exactly the new level with its channel and name
unchanged; every other registered logger's entry is entirely unchanged;
and a name not registered at call time is still not registered after,
so a logger created afterward is produced only by the ordinary
snapshot-creating `get` on the resulting state, not by the bulk call. -/
theorem C3_bulk_setLevel_scope (r : Registry) (name m : String) (lvl : Int) :
    ((r.setLevelBulk name lvl).names = r.names)
    ∧ (matchesSubtree name m = true → ∀ lg0, r.find m = some lg0 →
        (r.setLevelBulk name lvl).find m = some (lg0.setLevel lvl)
        ∧ (lg0.setLevel lvl)._level = lvl
        ∧ (lg0.setLevel lvl)._pChannel = lg0._pChannel
        ∧ (lg0.setLevel lvl)._name = lg0._name)
    ∧ (matchesSubtree name m = false → (r.setLevelBulk name lvl).find m = r.find m)
    ∧ (r.find m = none → (r.setLevelBulk name lvl).find m = none) := by
  have hf : ∀ lg : Logger,
      (if matchesSubtree name lg._name then lg.setLevel lvl else lg)._name = lg._name := by
    intro lg
    by_cases h : matchesSubtree name lg._name <;> simp [h, Logger.setLevel]
  have hmap : ∀ k, (r.setLevelBulk name lvl).find k
      = (r.find k).map (fun lg => if matchesSubtree name lg._name then lg.setLevel lvl else lg) := by
    intro k
    unfold Registry.setLevelBulk Registry.find
    exact find?_map_keyName r.loggers
      (fun lg => if matchesSubtree name lg._name then lg.setLevel lvl else lg) hf k
  refine ⟨?_, ?_, ?_, ?_⟩
  · unfold Registry.names Registry.setLevelBulk
    rw [List.map_map]
    exact List.map_congr_left (fun a _ => hf a)
  · intro hm lg0 hfind
    have hname : lg0._name = m := by
      have := List.find?_some hfind
      simpa using this
    rw [hmap, hfind]
    simp [hname, hm, Logger.setLevel]
  · intro hm
    rw [hmap]
    cases hfind : r.find m with
    | none => rfl
    | some lg0 =>
      have hname : lg0._name = m := by
        have := List.find?_some hfind
        simpa using this
      simp [hname, hm]
  · intro h
    rw [hmap, h]
    rfl

/-- C3 witness: bulk-setting level 9 on "a" updates the registered logger
"a" to level 9, keeping its channel. -/
theorem C3_witness :
    ((Registry.mk [{ _name := "a", _pChannel := none, _level := 2 }]).setLevelBulk "a" 9).find "a"
      = some (Logger.setLevel { _name := "a", _pChannel := none, _level := 2 } 9) :=
  ((C3_bulk_setLevel_scope (Registry.mk [{ _name := "a", _pChannel := none, _level := 2 }])
    "a" "a" 9).2.1 (by decide) { _name := "a", _pChannel := none, _level := 2 } rfl).1

/-- C7: destruction semantics.  `destroy(name)` on an unregistered name
is a silent no-op (the registry is unchanged; the embedding is total, so
nothing is raised); `has` reports absence with an explicit `none`,
holding exactly when no logger of that name is registered; after
`destroy(name)` the name is absent; and destroy's result -- hence every
subsequent `get(name)`, a function of that result -- does not depend on
the destroyed logger's prior level or channel: mutating them first
yields the same registry. -/
theorem C7_destroy_and_has (r : Registry) (name : String) (lvl : Int) (ch : Option Channel) :
    (r.find name = none → r.destroy name = r)
    ∧ ((r.destroy name).has name = none)
    ∧ (r.has name = none ↔ ∀ lg ∈ r.loggers, lg._name ≠ name)
    ∧ ((r.modifyLogger name (fun lg => (lg.setLevel lvl).setChannel ch)).destroy name
        = r.destroy name) := by
  refine ⟨?_, ?_, ?_, ?_⟩
  · intro h
    unfold Registry.destroy
    rcases r with ⟨l⟩
    simp only [Registry.mk.injEq]
    rw [List.filter_eq_self]
    intro a ha
    unfold Registry.find at h
    rw [List.find?_eq_none] at h
    simpa [bne] using h a ha
  · unfold Registry.has Registry.find Registry.destroy
    rw [List.find?_eq_none]
    intro a ha
    rw [List.mem_filter] at ha
    simpa [bne] using ha.2
  · unfold Registry.has Registry.find
    rw [List.find?_eq_none]
    simp
  · unfold Registry.destroy Registry.modifyLogger
    simp only [Registry.mk.injEq]
    exact filter_absorbs_keyed_update r.loggers name _ (fun lg => rfl)

/-- C7 witness: destroying an unregistered name in the empty registry is
a no-op. -/
theorem C7_witness :
    Registry.empty.destroy "x" = Registry.empty :=
  (C7_destroy_and_has Registry.empty "x" 0 none).1 rfl

set_option maxHeartbeats 1600000 in
/-- C4: parseLevel totality and failure.  `parseLevel` succeeds exactly
on the strings whose ASCII lowercasing is one of the nine symbolic
names; every other string fails with an InvalidArgument error; the
result depends only on the lowercased input (case-insensitivity); and
the nine names map to 0 (none) ascending through 8 (trace), checked
here in assorted letter cases. -/
theorem C4_parseLevel_symbolic_names (s t : String) :
    ((∃ n, parseLevel s = .ok n) ↔ lowercase s ∈ levelNames)
    ∧ (lowercase s ∉ levelNames → parseLevel s = .error (.invalidArgument s))
    ∧ (lowercase t = lowercase s → (parseLevel t).toOption = (parseLevel s).toOption)
    ∧ (parseLevel "none" = .ok 0 ∧ parseLevel "FATAL" = .ok 1 ∧ parseLevel "Critical" = .ok 2
       ∧ parseLevel "eRRor" = .ok 3 ∧ parseLevel "Warning" = .ok 4 ∧ parseLevel "NOTICE" = .ok 5
       ∧ parseLevel "Information" = .ok 6 ∧ parseLevel "debug" = .ok 7
       ∧ parseLevel "TRACE" = .ok 8) := by
  refine ⟨?_, ?_, ?_, rfl, rfl, rfl, rfl, rfl, rfl, rfl, rfl, rfl⟩
  · simp only [parseLevel, levelNames, List.mem_cons, List.not_mem_nil, or_false]
    split_ifs with h1 h2 h3 h4 h5 h6 h7 h8 h9 <;> simp_all
  · intro hmem
    simp only [levelNames, List.mem_cons, List.not_mem_nil, or_false, not_or] at hmem
    simp only [parseLevel]
    split_ifs <;> simp_all
  · intro h
    simp only [parseLevel, h]
    split_ifs <;> rfl

/-- C4 witness: an unrecognized string fails with InvalidArgument. -/
theorem C4_witness :
    parseLevel "verbose" = .error (.invalidArgument "verbose") :=
  (C4_parseLevel_symbolic_names "verbose" "verbose").2.1 (by decide)

/-- C5: positional format substitution.  The scan of `format` emits a
literal dollar for each double dollar, replaces a dollar followed by a
digit with the 0-indexed positional argument's string, copies every
non-dollar character through, and on the spec's example yields
`"a X b $ Y"`. -/
theorem C5_format_substitution (c : Char) (rest : List Char) (args : List String) :
    (formatScan ('$' :: '$' :: rest) args = '$' :: formatScan rest args)
    ∧ (c.isDigit = true → formatScan ('$' :: c :: rest) args
        = (argString args c).data ++ formatScan rest args)
    ∧ (c ≠ '$' → formatScan (c :: rest) args = c :: formatScan rest args)
    ∧ format "a $0 b $$ $1" ["X", "Y"] = "a X b $ Y" := by
  refine ⟨rfl, ?_, ?_, rfl⟩
  · intro hd
    have hne : ¬ (c = '$') := by
      intro h
      rw [h] at hd
      exact absurd hd (by decide)
    rw [formatScan.eq_def]
    simp [hne, hd]
  · intro h
    rw [formatScan.eq_def]
    simp [h]

/-- C5 witness: a dollar-digit placeholder is replaced by the positional
argument. -/
theorem C5_witness :
    formatScan ['$', '0'] ["X"] = (argString ["X"] '0').data ++ formatScan [] ["X"] :=
  (C5_format_substitution '0' [] ["X"]).2.1 (by decide)

/-- Helper: with enough fuel (always supplied by `dumpRows`), the dump
produces one row per started group of 16 bytes. -/
theorem dumpRowsFuel_length (fuel : Nat) :
    ∀ (offset : Nat) (bytes : List Nat), bytes.length ≤ fuel →
      (dumpRowsFuel fuel offset bytes).length = (bytes.length + 15) / 16 := by
  induction fuel with
  | zero =>
    intro offset bytes h
    have hb : bytes = [] := List.length_eq_zero.mp (Nat.le_zero.mp h)
    subst hb
    rfl
  | succ fuel ih =>
    intro offset bytes h
    cases bytes with
    | nil => rfl
    | cons b rest =>
      have hle : rest.length ≤ fuel := by
        simpa using h
      simp only [dumpRowsFuel, List.length_cons]
      rw [ih (offset + 16) (rest.drop 15) (by simp only [List.length_drop]; omega)]
      simp only [List.length_drop]
      omega

/-- C6: canonical hex dump.  `formatDump` appends to (never replaces) the
caller's message; the buffer is processed in rows of 16 bytes (one row
per started group of 16, a short final row with no padding); the ASCII
column renders a byte literally iff its value is in [32, 127) and as a
dot otherwise; and the 20-byte buffer 0..19 yields exactly the two rows
with offsets "0000" and "0010". -/
theorem C6_formatDump_canonical (msg : String) (buffer : List Nat) (b : Nat) :
    (formatDump msg buffer = msg ++ formatDump "" buffer)
    ∧ ((dumpRows 0 buffer).length = (buffer.length + 15) / 16)
    ∧ (32 ≤ b ∧ b < 127 → asciiChar b = Char.ofNat b)
    ∧ (¬ (32 ≤ b ∧ b < 127) → asciiChar b = '.')
    ∧ (formatDump "" (List.range 20)
        = "0000 00 01 02 03 04 05 06 07 08 09 0a 0b 0c 0d 0e 0f  ................\n0010 10 11 12 13  ....") := by
  refine ⟨?_, dumpRowsFuel_length buffer.length 0 buffer le_rfl, ?_, ?_, ?_⟩
  · unfold formatDump
    rw [String.empty_append]
  · intro h
    rw [asciiChar, if_pos h]
  · intro h
    rw [asciiChar, if_neg h]
  · rfl

/-- C6 witness: byte 65 is printable and rendered literally in the ASCII
column. -/
theorem C6_witness :
    asciiChar 65 = Char.ofNat 65 :=
  (C6_formatDump_canonical "" [] 65).2.2.1 (by decide)

/-- Helper: a name is registered iff some listed logger carries it. -/
theorem find_isSome_iff (r : Registry) (m : String) :
    (r.find m).isSome = true ↔ ∃ lg ∈ r.loggers, lg._name = m := by
  unfold Registry.find
  rw [List.find?_isSome]
  simp

/-- Helper: adding a logger in front cannot unregister a name. -/
theorem find_isSome_cons (lg : Logger) (l : List Logger) (m : String)
    (h : ((Registry.mk l).find m).isSome = true) :
    ((Registry.mk (lg :: l)).find m).isSome = true := by
  obtain ⟨lg0, hmem, hname⟩ := (find_isSome_iff (Registry.mk l) m).mp h
  exact (find_isSome_iff _ m).mpr ⟨lg0, List.mem_cons_of_mem _ hmem, hname⟩

/-- Helper: ancestor resolution only ever adds the root logger, so every
registered name stays registered. -/
theorem resolveAncestor_preserves_found (r : Registry) (n m : String)
    (h : (r.find m).isSome = true) :
    (((r.resolveAncestor n).1).find m).isSome = true := by
  unfold Registry.resolveAncestor Registry.getRoot
  cases hff : r.findFirst (ancestors n) with
  | some lg => exact h
  | none =>
    cases hr0 : r.find "" with
    | some lg => exact h
    | none =>
      rcases r with ⟨l⟩
      exact find_isSome_cons defaultRootLogger l m h

/-- Helper: `get` only ever adds loggers, so every registered name stays
registered. -/
theorem get_preserves_found (r : Registry) (n m : String)
    (h : (r.find m).isSome = true) :
    (((r.get n).1).find m).isSome = true := by
  unfold Registry.get
  cases hfn : r.find n with
  | some lg => exact h
  | none =>
    by_cases hn : n = ""
    · rcases r with ⟨l⟩
      simp only [hn, if_pos rfl]
      exact find_isSome_cons defaultRootLogger l m h
    · simp only [if_neg hn]
      rcases hra : r.resolveAncestor n with ⟨r1, anc⟩
      have h1 : (r1.find m).isSome = true := by
        have := resolveAncestor_preserves_found r n m h
        rw [hra] at this
        exact this
      rcases r1 with ⟨l1⟩
      exact find_isSome_cons _ l1 m h1

/-- C8 as stated is false: the claim says the root logger is removed only
by `shutdown()`, but `destroy` is keyed purely by name, so in the
touched state reached by `get("a")` (where the root is registered), the
non-shutdown operation `destroy("")` unregisters the root. -/
theorem C8_counterexample :
    (Registry.applyAll Registry.empty [Op.get "a", Op.destroy ""]).find "" = none
    ∧ (Registry.applyAll Registry.empty [Op.get "a"]).find "" = some defaultRootLogger
    ∧ Op.destroy "" ≠ Op.shutdown := by
  refine ⟨rfl, rfl, by decide⟩

/-- C8 amended: once the root logger is registered it stays registered
under every registry operation except `shutdown()` and `destroy("")`;
`shutdown()` empties the registry; and `get("")` on the empty registry
-- hence immediately after every shutdown -- recreates and registers a
usable root logger with the default configuration, so the registry
behaves as freshly initialized after every shutdown. -/
theorem C8_root_invariant_amended (r : Registry) (op : Op) :
    ((r.find "").isSome = true → op ≠ Op.shutdown → op ≠ Op.destroy "" →
      ((r.applyOp op).find "").isSome = true)
    ∧ (r.shutdown = Registry.empty)
    ∧ ((Registry.empty.get "").2 = defaultRootLogger
        ∧ (Registry.empty.get "").1.find "" = some defaultRootLogger)
    ∧ ((r.shutdown.get "").1.find "" = some defaultRootLogger) := by
  refine ⟨?_, rfl, ⟨rfl, rfl⟩, rfl⟩
  intro hroot hns hnd
  cases op with
  | get n => exact get_preserves_found r n "" hroot
  | create n ch lvl =>
    obtain ⟨lg0, hmem, hname⟩ := (find_isSome_iff r "").mp hroot
    unfold Registry.applyOp Registry.create
    by_cases hn : n = ""
    · subst hn
      apply (find_isSome_iff _ "").mpr
      exact ⟨_, List.mem_cons_self _ _, rfl⟩
    · apply (find_isSome_iff _ "").mpr
      refine ⟨lg0, List.mem_cons_of_mem _ ?_, hname⟩
      rw [List.mem_filter]
      refine ⟨hmem, ?_⟩
      rw [bne_iff_ne, hname]
      exact fun hEq => hn hEq.symm
  | destroy n =>
    have hn : n ≠ "" := by
      intro hEq
      subst hEq
      exact hnd rfl
    obtain ⟨lg0, hmem, hname⟩ := (find_isSome_iff r "").mp hroot
    unfold Registry.applyOp Registry.destroy
    apply (find_isSome_iff _ "").mpr
    refine ⟨lg0, ?_, hname⟩
    rw [List.mem_filter]
    refine ⟨hmem, ?_⟩
    rw [bne_iff_ne, hname]
    exact fun hEq => hn hEq.symm
  | setLevelBulk n lvl =>
    have hf : ∀ lg : Logger,
        (if matchesSubtree n lg._name then lg.setLevel lvl else lg)._name = lg._name := by
      intro lg
      by_cases h : matchesSubtree n lg._name <;> simp [h, Logger.setLevel]
    unfold Registry.applyOp Registry.setLevelBulk
    unfold Registry.find at hroot ⊢
    rw [find?_map_keyName r.loggers
      (fun lg => if matchesSubtree n lg._name then lg.setLevel lvl else lg) hf ""]
    cases hx : List.find? (fun lg => lg._name == "") r.loggers with
    | none => rw [hx] at hroot; simp at hroot
    | some lg => rfl
  | setChannelBulk n ch =>
    have hf : ∀ lg : Logger,
        (if matchesSubtree n lg._name then lg.setChannel ch else lg)._name = lg._name := by
      intro lg
      by_cases h : matchesSubtree n lg._name <;> simp [h, Logger.setChannel]
    unfold Registry.applyOp Registry.setChannelBulk
    unfold Registry.find at hroot ⊢
    rw [find?_map_keyName r.loggers
      (fun lg => if matchesSubtree n lg._name then lg.setChannel ch else lg) hf ""]
    cases hx : List.find? (fun lg => lg._name == "") r.loggers with
    | none => rw [hx] at hroot; simp at hroot
    | some lg => rfl
  | shutdown => exact absurd rfl hns

/-- C8 witness: a registry holding the root keeps it registered across a
`get` of another name. -/
theorem C8_witness :
    (((Registry.mk [defaultRootLogger]).applyOp (Op.get "x")).find "").isSome = true :=
  (C8_root_invariant_amended (Registry.mk [defaultRootLogger]) (Op.get "x")).1 rfl
    (by decide) (by decide)

end PocoSpec
